import Mathlib

/-!
Verification development for the `ord_snap` transport layer
(`src/packages/snap/src/api/http.ts`, class `HttpClient`).

The TypeScript source is shallowly embedded below:

* `requestAndRetry` embeds `HttpClient._requestAndRetry` (lines 201-220).
  The underlying transport primitive is modelled as a function
  `server : Nat → Outcome` giving, for each transport call (indexed by the
  `tries` counter, which increases by exactly one per call), either a
  transport-level exception (`Outcome.raise`) or a completed response
  carrying its `ok` flag (`Outcome.resp`).  The model returns the final
  result together with the number of transport calls performed.
-/

namespace OrdSnap.Http

/-- One outcome of invoking the transport primitive (`request()` in the
source): either the call itself raises (payload is an identifying tag), or it
completes with a response whose `ok` flag and identifying tag are recorded. -/
inductive Outcome where
  | raise : Nat → Outcome
  | resp : Bool → Nat → Outcome
  deriving DecidableEq, Repr

/-- Result of `_requestAndRetry`: a returned `ok` response (`success`), the
thrown `Server returned an error` failure (`httpError`), the thrown
`Exceeded configured limit` failure from the entry guard (`exceeded`), or a
propagated transport-level exception (`transportRaise`). -/
inductive RetryResult where
  | success : Nat → RetryResult
  | httpError : Nat → RetryResult
  | exceeded : RetryResult
  | transportRaise : Nat → RetryResult
  deriving DecidableEq, Repr

/-- Embedding of `HttpClient._requestAndRetry(request, tries = 0)`
(http.ts lines 201-220).  `retryTimes` is the client's `_retryTimes`.
The second component counts the transport calls made by this invocation
(each recursion level past the entry guard calls `request()` exactly once).

```
if (tries > this._retryTimes && this._retryTimes !== 0) throw ...;
const response = await request();
if (!response.ok) {
  if (this._retryTimes > tries) return await this._requestAndRetry(request, tries + 1);
  else throw new Error(errorMessage);
}
return response;
```
-/
def requestAndRetry (retryTimes : Nat) (server : Nat → Outcome) (tries : Nat) :
    RetryResult × Nat :=
  if tries > retryTimes ∧ retryTimes ≠ 0 then (.exceeded, 0)
  else
    match server tries with
    | .raise e => (.transportRaise e, 1)
    | .resp ok id =>
      if ok then (.success id, 1)
      else if _h : retryTimes > tries then
        let r := requestAndRetry retryTimes server (tries + 1)
        (r.1, r.2 + 1)
      else (.httpError id, 1)
  termination_by retryTimes - tries
  decreasing_by omega

/-- A transport whose first two responses are non-2xx and whose third is a
2xx response tagged `7`. -/
def serverTwoFailsThenOk : Nat → Outcome := fun i =>
  if i < 2 then .resp false i else .resp true 7

/-- A transport that always completes with a non-2xx response tagged `0`. -/
def alwaysFail : Nat → Outcome := fun _ => .resp false 0

/-- A transport whose first response is non-2xx and all later ones 2xx. -/
def serverFailThenOk : Nat → Outcome := fun i =>
  if i = 0 then .resp false 0 else .resp true 1

theorem requestAndRetry_calls_le (retryTimes : Nat) (server : Nat → Outcome) :
    ∀ k tries, retryTimes - tries = k →
      (requestAndRetry retryTimes server tries).2 ≤ k + 1 := by
  intro k
  induction k with
  | zero =>
    intro tries hk
    rw [requestAndRetry]
    split
    · simp
    · split
      · simp
      · split
        · simp
        · split
          · omega
          · simp
  | succ k ih =>
    intro tries hk
    rw [requestAndRetry]
    split
    · simp
    · split
      · simp
      · split
        · simp
        · split
          · have := ih (tries + 1) (by omega)
            simpa using this
          · simp

theorem requestAndRetry_alwaysFail (retryTimes : Nat) :
    ∀ k tries, retryTimes - tries = k → tries ≤ retryTimes →
      requestAndRetry retryTimes alwaysFail tries = (.httpError 0, k + 1) := by
  intro k
  induction k with
  | zero =>
    intro tries hk hle
    rw [requestAndRetry]
    have h1 : ¬ (tries > retryTimes ∧ retryTimes ≠ 0) := by omega
    rw [if_neg h1]
    simp only [alwaysFail]
    rw [if_neg (by simp)]
    rw [dif_neg (by omega)]
  | succ k ih =>
    intro tries hk hle
    rw [requestAndRetry]
    have h1 : ¬ (tries > retryTimes ∧ retryTimes ≠ 0) := by omega
    rw [if_neg h1]
    simp only [alwaysFail]
    rw [if_neg (by simp)]
    rw [dif_pos (by omega)]
    have := ih (tries + 1) (by omega) (by omega)
    simp [this]

/-- A transport whose every call raises a transport-level exception tagged `5`. -/
def serverRaises : Nat → Outcome := fun _ => .raise 5

/-- C1: for every non-zero retry budget `n`, the retry loop performs at most
`n + 1` transport calls per logical request; with budget 2, two non-2xx
responses followed by a 2xx give exactly 3 calls and return the 2xx response;
with budget 2 an always-failing server gives exactly 3 calls and then the
error is raised; a budget of 3 permits exactly 4 calls before raising. -/
theorem retry_budget_allows_n_plus_one_calls :
    (∀ n server, n ≠ 0 → (requestAndRetry n server 0).2 ≤ n + 1) ∧
    requestAndRetry 2 serverTwoFailsThenOk 0 = (.success 7, 3) ∧
    requestAndRetry 2 alwaysFail 0 = (.httpError 0, 3) ∧
    requestAndRetry 3 alwaysFail 0 = (.httpError 0, 4) := by
  refine ⟨?_, ?_, ?_, ?_⟩
  · intro n server _
    simpa using requestAndRetry_calls_le n server n 0 (by omega)
  · rw [requestAndRetry]; norm_num [serverTwoFailsThenOk]
    rw [requestAndRetry]; norm_num [serverTwoFailsThenOk]
    rw [requestAndRetry]; norm_num [serverTwoFailsThenOk]
  · simpa using requestAndRetry_alwaysFail 2 2 0 rfl (by omega)
  · simpa using requestAndRetry_alwaysFail 3 3 0 rfl (by omega)

/-- Witness for `retry_budget_allows_n_plus_one_calls` at budget 2. -/
theorem retry_budget_allows_n_plus_one_calls_witness :
    (2 : Nat) ≠ 0 ∧ (requestAndRetry 2 alwaysFail 0).2 ≤ 2 + 1 :=
  ⟨by decide, retry_budget_allows_n_plus_one_calls.1 2 alwaysFail (by decide)⟩

/-- C2 counterexample: with `retryTimes = 0` and a server failing once and
then succeeding, the loop does NOT keep retrying until the 2xx response: it
raises the `Server returned an error` failure after exactly one transport
call (the live retry check `this._retryTimes > tries` is `0 > 0`, false; the
`retryTimes !== 0` sentinel appears only in the unreachable entry guard). -/
theorem retry_budget_zero_raises_immediately_cex :
    requestAndRetry 0 serverFailThenOk 0 = (.httpError 0, 1) ∧
    (requestAndRetry 0 serverFailThenOk 0).1 ≠ .success 1 := by
  have h : requestAndRetry 0 serverFailThenOk 0 = (.httpError 0, 1) := by
    rw [requestAndRetry]; norm_num [serverFailThenOk]
  exact ⟨h, by rw [h]; simp⟩

/-- C2 amended: when the retry budget is exactly 0, no retrying occurs at
all — the first non-2xx response raises the error after exactly one
transport call, and a first 2xx response is returned after one call. -/
theorem retry_budget_zero_no_retry (server : Nat → Outcome) (id : Nat) :
    (server 0 = .resp false id → requestAndRetry 0 server 0 = (.httpError id, 1)) ∧
    (server 0 = .resp true id → requestAndRetry 0 server 0 = (.success id, 1)) := by
  constructor <;> intro h <;> (rw [requestAndRetry]; norm_num [h])

/-- Witness for `retry_budget_zero_no_retry`. -/
theorem retry_budget_zero_no_retry_witness :
    serverFailThenOk 0 = .resp false 0 ∧
    requestAndRetry 0 serverFailThenOk 0 = (.httpError 0, 1) :=
  ⟨rfl, (retry_budget_zero_no_retry serverFailThenOk 0).1 rfl⟩

/-- C6: when the transport primitive itself raises (rather than completing
with a non-2xx response), the failure propagates immediately after a single
transport call, with no retry, for every retry budget. -/
theorem transport_exception_not_retried (n : Nat) (server : Nat → Outcome)
    (e : Nat) (h : server 0 = .raise e) :
    requestAndRetry n server 0 = (.transportRaise e, 1) := by
  rw [requestAndRetry]
  norm_num [h]

/-- Witness for `transport_exception_not_retried` at budget 3. -/
theorem transport_exception_not_retried_witness :
    serverRaises 0 = .raise 5 ∧
    requestAndRetry 3 serverRaises 0 = (.transportRaise 5, 1) :=
  ⟨rfl, transport_exception_not_retried 3 serverRaises 5 rfl⟩

/-! ### Host resolution (constructor, http.ts lines 24-25 and 133-136) -/

/-- Source constant `API_DOMAIN = 'astrox.app'` (http.ts line 24). -/
def API_DOMAIN : String := "astrox.app"

/-- Source constant `API_SUB_DOMAIN = '.astrox.app'` (http.ts line 25). -/
def API_SUB_DOMAIN : String := ".astrox.app"

/-- Model of JavaScript `String.prototype.endsWith` at the character level. -/
def strEndsWith (s suffix : String) : Bool := suffix.data.isSuffixOf s.data

/-- Embedding of the hostname rewrite in the constructor (http.ts lines
133-136): `if (hostname.endsWith(API_SUB_DOMAIN)) hostname = API_DOMAIN`. -/
def canonicalizeHostname (h : String) : String :=
  if strEndsWith h API_SUB_DOMAIN then API_DOMAIN else h

/-- Drop everything up to and including the first `://` (helper for the
`URL.hostname` model below). -/
def afterSchemeSep : List Char → List Char
  | ':' :: '/' :: '/' :: rest => rest
  | _ :: cs => afterSchemeSep cs
  | [] => []

/-- Characters that terminate the host part of a URL authority. -/
def hostEnd (c : Char) : Bool := c = '/' ∨ c = ':' ∨ c = '?' ∨ c = '#'

/-- Model of reading `URL.hostname` from an absolute URL of the plain
`scheme://host` or `scheme://host/...` form (no userinfo, which is all this
repository exercises). -/
def hostnameOf (url : String) : String :=
  ⟨(afterSchemeSep url.data).takeWhile (fun c => ! hostEnd c)⟩

/-- C8: a hostname ending in the managed sub-domain suffix `.astrox.app` is
rewritten to the apex domain `astrox.app` at construction; in particular the
host `https://x.astrox.app` resolves to canonical hostname `astrox.app`. -/
theorem host_subdomain_canonicalized (h : String)
    (hs : strEndsWith h API_SUB_DOMAIN = true) :
    canonicalizeHostname (hostnameOf "https://x.astrox.app") = "astrox.app" ∧
    canonicalizeHostname h = "astrox.app" := by
  refine ⟨by decide, ?_⟩
  simp [canonicalizeHostname, hs, API_DOMAIN]

/-- Witness for `host_subdomain_canonicalized`. -/
theorem host_subdomain_canonicalized_witness :
    strEndsWith "x.astrox.app" API_SUB_DOMAIN = true ∧
    canonicalizeHostname "x.astrox.app" = "astrox.app" :=
  ⟨by decide, (host_subdomain_canonicalized "x.astrox.app" (by decide)).2⟩

/-! ### GET query-string construction (`httpGet`, http.ts lines 155-176) -/

/-- Model of WHATWG `new URL(path, base).toString()` for the case exercised
here: an absolute-path `path` resolved against an origin-only base. -/
def resolveUrl (origin path : String) : String := origin ++ path

/-- Embedding of the query-string loop of `httpGet` (http.ts lines 162-172):
the parameter record is an association list in insertion order with values
already stringified; the counter `c` decides between the `?` and `&`
separators exactly as in the source. -/
def queryUrl (endpoint : String) (params : List (String × String)) : String :=
  (params.foldl
    (fun acc p =>
      (acc.1 ++ (if acc.2 = 0 then "?" else "&") ++ p.1 ++ "=" ++ p.2, acc.2 + 1))
    (endpoint, 0)).1

theorem foldl_string_append_shift (xs : List String) :
    ∀ a b : String, xs.foldl (· ++ ·) (a ++ b) = a ++ xs.foldl (· ++ ·) b := by
  induction xs with
  | nil => intro a b; rfl
  | cons x xs ih => intro a b; simp only [List.foldl_cons, String.append_assoc, ih]

theorem string_join_cons (x : String) (xs : List String) :
    String.join (x :: xs) = x ++ String.join xs := by
  show xs.foldl (· ++ ·) ("" ++ x) = x ++ xs.foldl (· ++ ·) ""
  rw [String.empty_append]
  conv_lhs => rw [← String.append_empty x]
  rw [foldl_string_append_shift]

theorem intercalate_go_join (sep : String) (xs : List String) :
    ∀ acc : String, String.intercalate.go acc sep xs =
      acc ++ String.join (xs.map fun y => sep ++ y) := by
  induction xs with
  | nil =>
    intro acc
    simp [String.intercalate.go, String.join, String.append_empty]
  | cons y ys ih =>
    intro acc
    rw [String.intercalate.go, ih, List.map_cons, string_join_cons]
    simp [String.append_assoc]

theorem queryUrl_foldl_pos (ps : List (String × String)) :
    ∀ (s : String) (c : Nat), c ≠ 0 →
      (ps.foldl
        (fun acc p =>
          (acc.1 ++ (if acc.2 = 0 then "?" else "&") ++ p.1 ++ "=" ++ p.2, acc.2 + 1))
        (s, c)).1
        = s ++ String.join (ps.map fun p => "&" ++ (p.1 ++ "=" ++ p.2)) := by
  induction ps with
  | nil => intro s c hc; simp [String.join, String.append_empty]
  | cons p ps ih =>
    intro s c hc
    rw [List.foldl_cons]
    simp only [if_neg hc]
    rw [ih _ (c + 1) (by omega), List.map_cons, string_join_cons]
    simp [String.append_assoc]

/-- C7: `httpGet` builds its query string by iterating the parameter mapping
in insertion order, joining `key=value` pairs with `&`, with a `?` prefix
exactly when at least one parameter exists; `httpGet('/status', {a: 1, b: 2})`
against host `https://astrox.app` requests
`https://astrox.app/status?a=1&b=2`. -/
theorem queryUrl_insertion_order :
    (∀ (e : String) (ps : List (String × String)),
        queryUrl e ps = e ++ (if ps = [] then "" else
          "?" ++ String.intercalate "&" (ps.map fun p => p.1 ++ "=" ++ p.2))) ∧
    resolveUrl "https://astrox.app" (queryUrl "/status" [("a", "1"), ("b", "2")]) =
      "https://astrox.app/status?a=1&b=2" := by
  constructor
  · intro e ps
    cases ps with
    | nil => simp [queryUrl, String.append_empty]
    | cons p rest =>
      simp only [queryUrl, List.foldl_cons, if_pos rfl]
      rw [queryUrl_foldl_pos rest _ 1 (by omega)]
      simp only [List.map_cons, String.intercalate, intercalate_go_join]
      simp [String.append_assoc, Function.comp_def]
  · rfl

/-! ### Pipeline registration (`addTransform`, http.ts lines 149-153) -/

/-- A pipeline entry as seen by `addTransform`: an identity tag and its
effective integer priority (`x.priority || 0`, and the `priority` argument
defaulting to `fn.priority || 0` is taken as already resolved). -/
structure Transform where
  id : Nat
  priority : Int
  deriving DecidableEq, Repr

/-- Embedding of `HttpClient.addTransform` (http.ts lines 149-153):
`findIndex(x => (x.priority || 0) < priority)` locates the first pipeline
entry with strictly lower priority and the new transform is spliced in
there; if no entry is strictly lower it is spliced at the end. -/
def addTransform : List Transform → Transform → List Transform
  | [], t => [t]
  | x :: xs, t =>
    if x.priority < t.priority then t :: x :: xs else x :: addTransform xs t

theorem mem_addTransform {l : List Transform} {t b : Transform} :
    b ∈ addTransform l t ↔ b = t ∨ b ∈ l := by
  induction l with
  | nil => simp [addTransform]
  | cons x xs ih =>
    by_cases h : x.priority < t.priority
    · simp only [addTransform, if_pos h, List.mem_cons]
    · simp only [addTransform, if_neg h, List.mem_cons, ih]
      tauto

theorem addTransform_sorted {l : List Transform} (t : Transform)
    (hl : l.Sorted (fun a b => b.priority ≤ a.priority)) :
    (addTransform l t).Sorted (fun a b => b.priority ≤ a.priority) := by
  induction l with
  | nil => simp [addTransform]
  | cons x xs ih =>
    rw [List.sorted_cons] at hl
    by_cases h : x.priority < t.priority
    · rw [addTransform, if_pos h]
      refine List.sorted_cons.mpr ⟨?_, List.sorted_cons.mpr hl⟩
      intro b hb
      rcases List.mem_cons.mp hb with rfl | hb
      · exact le_of_lt h
      · exact le_trans (hl.1 b hb) (le_of_lt h)
    · rw [addTransform, if_neg h]
      refine List.sorted_cons.mpr ⟨?_, ih hl.2⟩
      intro b hb
      rcases mem_addTransform.mp hb with rfl | hb
      · exact not_lt.mp h
      · exact hl.1 b hb

theorem addTransform_eq_insert (l : List Transform) (t : Transform) :
    addTransform l t =
      l.takeWhile (fun x => decide (t.priority ≤ x.priority)) ++
        t :: l.dropWhile (fun x => decide (t.priority ≤ x.priority)) := by
  induction l with
  | nil => simp [addTransform]
  | cons x xs ih =>
    by_cases h : x.priority < t.priority
    · have hx : ¬ t.priority ≤ x.priority := not_le.mpr h
      simp [addTransform, h, List.takeWhile_cons, List.dropWhile_cons, hx]
    · have hx : t.priority ≤ x.priority := not_lt.mp h
      simp [addTransform, h, List.takeWhile_cons, List.dropWhile_cons, hx, ih]

theorem pipeline_foldl_sorted (ts : List Transform) :
    ∀ l : List Transform, l.Sorted (fun a b => b.priority ≤ a.priority) →
      (ts.foldl addTransform l).Sorted (fun a b => b.priority ≤ a.priority) := by
  induction ts with
  | nil => intro l hl; simpa using hl
  | cons t ts ih => intro l hl; exact ih _ (addTransform_sorted t hl)

/-- C3 counterexample: two transforms of equal priority 0 added in the order
id 0 then id 1 end up with the OLDER one first (`[⟨0,0⟩, ⟨1,0⟩]`): the most
recently added equal-priority transform is NOT ordered before previously
added ones, contrary to the claim. -/
theorem addTransform_tie_break_cex :
    addTransform (addTransform [] ⟨0, 0⟩) ⟨1, 0⟩ = [⟨0, 0⟩, ⟨1, 0⟩] ∧
    ([⟨0, 0⟩, ⟨1, 0⟩] : List Transform) ≠ [⟨1, 0⟩, ⟨0, 0⟩] := by
  exact ⟨by decide, by decide⟩

/-- C3 amended: every pipeline built by a sequence of `addTransform` calls
is sorted by descending priority, and adding priorities 5, 10, 1 yields the
order [10, 5, 1]; but on a priority tie the new transform is inserted AFTER
all existing transforms of greater-or-equal priority (at the first position
whose priority is strictly lower), so earlier-added equal-priority
transforms stay before later-added ones. -/
theorem pipeline_sorted_desc_ties_after :
    (∀ ts : List Transform,
        (ts.foldl addTransform []).Sorted (fun a b => b.priority ≤ a.priority)) ∧
    ([⟨0, 5⟩, ⟨1, 10⟩, ⟨2, 1⟩] : List Transform).foldl addTransform [] =
      [⟨1, 10⟩, ⟨0, 5⟩, ⟨2, 1⟩] ∧
    (∀ (l : List Transform) (t : Transform),
        addTransform l t =
          l.takeWhile (fun x => decide (t.priority ≤ x.priority)) ++
            t :: l.dropWhile (fun x => decide (t.priority ≤ x.priority))) :=
  ⟨fun ts => pipeline_foldl_sorted ts [] (by simp), by decide, addTransform_eq_insert⟩

/-! ### Credentials and Authorization headers
(constructor lines 138-141, `httpGet` lines 156-160, `httpPost` lines
181-184).  Header values may be arbitrary bytes after the
`Buffer.from(..., 'base64')` decode, so they are modelled as byte lists. -/

/-- Raw byte sequences. -/
abbrev Bytes := List Nat

/-- Index of a character in the RFC 4648 base64 alphabet. -/
def b64Index (c : Char) : Option Nat :=
  if 'A' ≤ c ∧ c ≤ 'Z' then some (c.toNat - 'A'.toNat)
  else if 'a' ≤ c ∧ c ≤ 'z' then some (c.toNat - 'a'.toNat + 26)
  else if '0' ≤ c ∧ c ≤ '9' then some (c.toNat - '0'.toNat + 52)
  else if c = '+' then some 62
  else if c = '/' then some 63
  else none

/-- Decode a list of base64 sextets into bytes; a final partial group
contributes only its complete bytes. -/
def b64DecodeSextets : List Nat → Bytes
  | a :: b :: c :: d :: rest =>
      (a * 4 + b / 16) :: ((b % 16) * 16 + c / 4) :: ((c % 4) * 64 + d) ::
        b64DecodeSextets rest
  | [a, b, c] => [a * 4 + b / 16, (b % 16) * 16 + c / 4]
  | [a, b] => [a * 4 + b / 16]
  | _ => []

/-- Model of Node's `Buffer.from(s, 'base64')`: characters outside the
base64 alphabet (including `=` padding) are ignored and the remaining
sextets are decoded into bytes. -/
def nodeBase64Decode (s : String) : Bytes :=
  b64DecodeSextets (s.data.filterMap b64Index)

/-- Character of a base64 sextet in the RFC 4648 alphabet. -/
def b64Char (n : Nat) : Char :=
  if n < 26 then Char.ofNat ('A'.toNat + n)
  else if n < 52 then Char.ofNat ('a'.toNat + n - 26)
  else if n < 62 then Char.ofNat ('0'.toNat + n - 52)
  else if n = 62 then '+'
  else '/'

/-- Standard padded base64 encoding of a byte sequence. -/
def b64EncodeBytes : Bytes → List Char
  | b1 :: b2 :: b3 :: rest =>
      b64Char (b1 / 4) :: b64Char ((b1 % 4) * 16 + b2 / 16) ::
        b64Char ((b2 % 16) * 4 + b3 / 64) :: b64Char (b3 % 64) ::
        b64EncodeBytes rest
  | [b1, b2] =>
      [b64Char (b1 / 4), b64Char ((b1 % 4) * 16 + b2 / 16),
        b64Char ((b2 % 16) * 4), '=']
  | [b1] => [b64Char (b1 / 4), b64Char ((b1 % 4) * 16), '=', '=']
  | [] => []

/-- Code points of a string's characters (its bytes, for ASCII strings). -/
def asciiBytes (s : String) : Bytes := s.data.map Char.toNat

/-- Base64-encode the bytes of an ASCII string — what standard HTTP Basic
authentication (e.g. `btoa`) produces, and what the claim describes. -/
def base64EncodeAscii (s : String) : String := ⟨b64EncodeBytes (asciiBytes s)⟩

/-- Embedding of the credentials set-up in the constructor (http.ts lines
138-141): ``this._credentials = `${name}${password ? ':' + password : ''}``;
`none` for `password` models `options.credentials.password` being absent,
and the empty string is falsy in JavaScript. -/
def credentialsString (name : String) (password : Option String) : String :=
  name ++ (match password with
           | some p => if p ≠ "" then ":" ++ p else ""
           | none => "")

/-- The bytes of the `Authorization` header value built by the source:
`'Basic ' + Buffer.from(credentials, 'base64')` (http.ts lines 158 and
183) — `Buffer.from` with encoding `'base64'` base64-DECODES the
credentials string; concatenation appends the resulting bytes. -/
def basicAuthValueBytes (credentials : String) : Bytes :=
  asciiBytes "Basic " ++ nodeBase64Decode credentials

/-- Embedding of the header construction in `httpGet` (http.ts lines
156-160): `this._credentials ? { Authorization: ... } : {}`; `none` models a
client constructed without `options.credentials`, and a configured but empty
credentials string is falsy. -/
def httpGetHeaders (credentials : Option String) : List (String × Bytes) :=
  match credentials with
  | some c => if c ≠ "" then [("Authorization", basicAuthValueBytes c)] else []
  | none => []

/-- Embedding of the headers built in `httpPost` (http.ts lines 181-184):
a JSON content type plus, when `this._credentials` is truthy, the same
`Authorization` value as in `httpGet`. -/
def httpPostHeaders (credentials : Option String) : List (String × Bytes) :=
  ("Content-Type", asciiBytes "application/json") ::
    (match credentials with
     | some c => if c ≠ "" then [("Authorization", basicAuthValueBytes c)] else []
     | none => [])

/-- C4 (code bug): with credentials name `user` and no password, the source
builds the credentials string `user` (no colon is appended for a missing or
empty password) and the `Authorization` value
`'Basic ' + Buffer.from('user', 'base64')`, which base64-DECODES `user` into
the bytes `[0xBA, 0xC7, 0xAB]`; the claimed value
`Basic base64('user:')` = `Basic dXNlcjo=` differs — the code decodes where
Basic authentication requires encoding (`btoa`). -/
theorem basic_auth_header_decodes_not_encodes :
    credentialsString "user" none = "user" ∧
    httpPostHeaders (some (credentialsString "user" none)) =
      [("Content-Type", asciiBytes "application/json"),
       ("Authorization", asciiBytes "Basic " ++ [186, 199, 171])] ∧
    base64EncodeAscii "user:" = "dXNlcjo=" ∧
    asciiBytes "Basic " ++ [186, 199, 171] ≠
      asciiBytes ("Basic " ++ base64EncodeAscii "user:") := by
  refine ⟨by decide, by decide, by decide, by decide⟩

/-- C9 counterexample: credentials configured with an empty name and no
password produce the credentials string `""`, which is falsy in JavaScript,
so `httpGet` attaches NO `Authorization` header even though credentials are
configured. -/
theorem httpGet_auth_empty_name_cex :
    credentialsString "" none = "" ∧
    httpGetHeaders (some (credentialsString "" none)) = [] :=
  ⟨rfl, rfl⟩

/-- C9 amended: `httpGet` attaches an `Authorization` header exactly when
the configured credentials string is non-empty; with no credentials (or
credentials whose built string is empty) the built header mapping is
empty. -/
theorem httpGet_headers_auth (c : String) (h : c ≠ "") :
    httpGetHeaders none = [] ∧
    httpGetHeaders (some "") = [] ∧
    httpGetHeaders (some c) = [("Authorization", basicAuthValueBytes c)] := by
  refine ⟨rfl, rfl, ?_⟩
  simp [httpGetHeaders, h]

/-- Witness for `httpGet_headers_auth`. -/
theorem httpGet_headers_auth_witness :
    ("user" : String) ≠ "" ∧
    httpGetHeaders (some "user") = [("Authorization", basicAuthValueBytes "user")] :=
  ⟨by decide, (httpGet_headers_auth "user" (by decide)).2.2⟩

/-! ### Request transformation and dispatch (`_transform` http.ts lines
222-230, `httpGet` lines 155-176, `httpPost` lines 177-199) -/

/-- The call-style request envelope built by `httpPost` (http.ts lines
178-188): the `request` sub-object's method and headers, the endpoint, and
the structured body (modelled as an association list). -/
structure Payload where
  method : String
  headers : List (String × Bytes)
  endpoint : String
  body : List (String × String)
  deriving DecidableEq, Repr

/-- A pipeline transform as consumed by `_transform`: it may produce a new
request, or nothing (`undefined`/`void`, meaning "no change"). -/
abbrev TransformFn := Payload → Option Payload

/-- Embedding of `HttpClient._transform` (http.ts lines 222-230): the
request threads through the pipeline in order, each transform receiving the
request produced by the previous step; `r2 || r` keeps the previous request
when a transform yields nothing. -/
def transformRequest (pipeline : List TransformFn) (request : Payload) : Payload :=
  pipeline.foldl (fun r fn => (fn r).getD r) request

/-- The arguments `httpPost`/`httpGet` hand to the transport primitive: the
resolved URL and the relevant `RequestInit` fields.  `_callOptions` and
`_fetchOptions` are spread BEFORE these fields in the source, so they can
never override them and are not modelled. -/
structure FetchArgs where
  url : String
  method : Option String
  headers : List (String × Bytes)
  body : Option (List (String × String))
  deriving DecidableEq, Repr

/-- The `payload` object built by `httpPost` (http.ts lines 178-188). -/
def httpPostPayload (credentials : Option String) (endpoint : String)
    (body : List (String × String)) : Payload :=
  { method := "POST", headers := httpPostHeaders credentials,
    endpoint := endpoint, body := body }

/-- Embedding of the transport call made by `httpPost` (http.ts lines
191-197): `{...this._callOptions, ...payload.request, body: transformed.body}`
with the URL resolved from the ORIGINAL `endpoint` — method and headers come
from the originally built `payload.request`; only the body comes from the
pipeline's output. -/
def httpPostFetchArgs (host : String) (credentials : Option String)
    (pipeline : List TransformFn) (endpoint : String)
    (body : List (String × String)) : FetchArgs :=
  let payload := httpPostPayload credentials endpoint body
  let transformed := transformRequest pipeline payload
  { url := resolveUrl host endpoint, method := some payload.method,
    headers := payload.headers, body := some transformed.body }

/-- Embedding of the transport call made by `httpGet` (http.ts lines
155-175): `this._fetch('' + new URL(url, host), { headers, ...fetchOptions })`
— `_transform` is never invoked on this path.  The client's pipeline is
still a parameter here, recorded to state that it is unused. -/
def httpGetFetchArgs (host : String) (credentials : Option String)
    (_pipeline : List TransformFn) (endpoint : String)
    (params : List (String × String)) : FetchArgs :=
  { url := resolveUrl host (queryUrl endpoint params),
    method := none, headers := httpGetHeaders credentials, body := none }

/-- A transform that replaces the whole request with a fresh one carrying a
different method, empty headers and a new body (no in-place mutation). -/
def swapMethodTransform : TransformFn := fun q =>
  some { method := "GET", headers := [], endpoint := q.endpoint,
         body := [("k", "v")] }

/-- C5: `_transform` threads the request sequentially through the pipeline
in order — each transform receives the previous step's output, and a
transform yielding nothing leaves the previous request unchanged — and the
pipeline runs only for call-style POST requests: `httpGet`'s transport call
is identical whatever the pipeline, while `httpPost`'s transmitted body is
the body of the pipeline's output. -/
theorem transform_pipeline_sequential
    (pipeline : List TransformFn) (fn : TransformFn) (r : Payload)
    (hnone : fn (transformRequest pipeline r) = none) :
    (∀ (p : List TransformFn) (g : TransformFn) (q : Payload),
        transformRequest (p ++ [g]) q =
          (g (transformRequest p q)).getD (transformRequest p q)) ∧
    transformRequest (pipeline ++ [fn]) r = transformRequest pipeline r ∧
    (∀ (host : String) (credentials : Option String)
        (p1 p2 : List TransformFn) (endpoint : String)
        (params : List (String × String)),
        httpGetFetchArgs host credentials p1 endpoint params =
          httpGetFetchArgs host credentials p2 endpoint params) ∧
    (∀ (host : String) (credentials : Option String) (p : List TransformFn)
        (endpoint : String) (body : List (String × String)),
        (httpPostFetchArgs host credentials p endpoint body).body =
          some (transformRequest p (httpPostPayload credentials endpoint body)).body) := by
  refine ⟨?_, ?_, ?_, ?_⟩
  · intro p g q; simp [transformRequest, List.foldl_append]
  · have h1 : transformRequest (pipeline ++ [fn]) r =
        (fn (transformRequest pipeline r)).getD (transformRequest pipeline r) := by
      simp [transformRequest, List.foldl_append]
    rw [h1, hnone, Option.getD_none]
  · intro _ _ _ _ _ _; rfl
  · intro _ _ _ _ _; rfl

/-- Witness for `transform_pipeline_sequential`. -/
theorem transform_pipeline_sequential_witness :
    (fun _ => (none : Option Payload))
        (transformRequest [] (httpPostPayload none "/x" [])) = none ∧
    transformRequest ([] ++ [fun _ => (none : Option Payload)])
        (httpPostPayload none "/x" []) =
      transformRequest [] (httpPostPayload none "/x" []) :=
  ⟨rfl, (transform_pipeline_sequential [] (fun _ => none)
      (httpPostPayload none "/x" []) rfl).2.1⟩

/-- C10: only the `body` field of the pipeline output reaches the transport
call in `httpPost` — the method, headers and URL sent come from the
originally built request, so a transform that returns a fresh request with a
different method and headers (such as `swapMethodTransform`, which does not
mutate its input) changes the transmitted body but neither the method nor
the headers. -/
theorem httpPost_frame_method_headers (host : String)
    (credentials : Option String) (pipeline : List TransformFn)
    (endpoint : String) (body : List (String × String)) :
    (httpPostFetchArgs host credentials pipeline endpoint body).method =
      some "POST" ∧
    (httpPostFetchArgs host credentials pipeline endpoint body).headers =
      httpPostHeaders credentials ∧
    (httpPostFetchArgs host credentials pipeline endpoint body).url =
      resolveUrl host endpoint ∧
    (httpPostFetchArgs host credentials pipeline endpoint body).body =
      some (transformRequest pipeline
        (httpPostPayload credentials endpoint body)).body ∧
    (httpPostFetchArgs host credentials [swapMethodTransform] endpoint body).method =
      some "POST" ∧
    (httpPostFetchArgs host credentials [swapMethodTransform] endpoint body).headers =
      httpPostHeaders credentials ∧
    (httpPostFetchArgs host credentials [swapMethodTransform] endpoint body).body =
      some [("k", "v")] :=
  ⟨rfl, rfl, rfl, rfl, rfl, rfl, rfl⟩

end OrdSnap.Http
